import Mathlib

/-!
Shallow embedding of the recurrence engine of the planer repository:
`worker/services/recurrenceService.ts` (rule validation, next-occurrence
calculation, end conditions) and `worker/services/taskInstanceService.ts`
(instance generation, deduplication, per-instance overrides).

Dates are modelled as naive timestamps: a calendar day index (days since
1970-01-01) plus minutes within the day.  JavaScript `Date` mutators used by
the source are translated as follows: `setDate(getDate() + n)` is adding `n`
days, `getDay()` is the weekday index (0 = Sunday .. 6 = Saturday, epoch day
0 being a Thursday), `setMonth`/`setFullYear` decompose the day index into a
civil date, shift, and renormalize with day-of-month overflow rolling into
the following month exactly as in JavaScript.
-/

deriving instance DecidableEq for Except

namespace Planer

structure DateTime where
  days : Int
  mins : Int
deriving DecidableEq, Repr

/-- Total order key for timestamps (JS `Date` comparison via its numeric value). -/
def toMins (d : DateTime) : Int := d.days * 1440 + d.mins

def ofMins (m : Int) : DateTime := ⟨m.fdiv 1440, m.emod 1440⟩

/-- `setDate(getDate() + n)`: shift by `n` calendar days, keeping the time of day. -/
def addDays (n : Int) (d : DateTime) : DateTime := ⟨d.days + n, d.mins⟩

/-- JS `getDay()`: 0 = Sunday .. 6 = Saturday; epoch day 0 (1970-01-01) is a Thursday. -/
def getDay (d : DateTime) : Int := (d.days + 4) % 7

/-- A proleptic Gregorian civil date (month 1..12). -/
structure Civil where
  y : Int
  m : Int
  d : Int
deriving DecidableEq, Repr

/-- Civil date from a day index (days since 1970-01-01). -/
def civilFromDays (z0 : Int) : Civil :=
  let z := z0 + 719468
  let era := z.fdiv 146097
  let doe := z - era * 146097
  let yoe := (doe - doe / 1460 + doe / 36524 - doe / 146096) / 365
  let y := yoe + era * 400
  let doy := doe - (365 * yoe + yoe / 4 - yoe / 100)
  let mp := (5 * doy + 2) / 153
  let d := doy - (153 * mp + 2) / 5 + 1
  let m := mp + (if mp < 10 then 3 else -9)
  ⟨y + (if m ≤ 2 then 1 else 0), m, d⟩

/-- Day index of a civil date (inverse of `civilFromDays`). -/
def daysFromCivil (c : Civil) : Int :=
  let y := c.y - (if c.m ≤ 2 then 1 else 0)
  let era := y.fdiv 400
  let yoe := y - era * 400
  let doy := (153 * (c.m + (if c.m > 2 then -3 else 9)) + 2) / 5 + c.d - 1
  let doe := yoe * 365 + yoe / 4 - yoe / 100 + doy
  era * 146097 + doe - 719468

/-- JS `setMonth(getMonth() + k)`: month arithmetic with day-of-month overflow
rolling into the next month, keeping the time of day. -/
def setMonthAdd (k : Int) (dt : DateTime) : DateTime :=
  let c := civilFromDays dt.days
  let mi := c.m - 1 + k
  let y := c.y + mi.fdiv 12
  let m := mi.emod 12 + 1
  ⟨daysFromCivil ⟨y, m, 1⟩ + (c.d - 1), dt.mins⟩

/-- JS `setDate(j)`: set the day of the current month (overflow rolls over). -/
def setDayOfMonth (j : Int) (dt : DateTime) : DateTime :=
  let c := civilFromDays dt.days
  ⟨daysFromCivil ⟨c.y, c.m, 1⟩ + (j - 1), dt.mins⟩

/-- JS `setFullYear(getFullYear() + k)` (Feb 29 overflow rolls into March). -/
def setYearAdd (k : Int) (dt : DateTime) : DateTime :=
  let c := civilFromDays dt.days
  ⟨daysFromCivil ⟨c.y + k, c.m, 1⟩ + (c.d - 1), dt.mins⟩

/-! ## The recurrence rule data model (src/types/index.ts, migration 0003) -/

inductive RecurrenceType
  | daily | weekly | monthly | yearly | workdays | weekends | custom
deriving DecidableEq, Repr

inductive RecurrenceEndType
  | never | date | count
deriving DecidableEq, Repr

/-- `custom_unit` column added by migration 0003 (hours/days/weeks/months). -/
inductive CustomUnit
  | hours | days | weeks | months
deriving DecidableEq, Repr

/-- `RecurrenceRule` (opaque `id`/`task_id`/`created_at` metadata omitted).
Per the type declaration and the rule form UI, `days_of_week` holds weekday
indices 0..6 with 0 = Monday and 6 = Sunday. -/
structure RecurrenceRule where
  type : RecurrenceType
  interval : Int
  days_of_week : Option (List Int) := none
  day_of_month : Option Int := none
  end_type : RecurrenceEndType
  end_date : Option DateTime := none
  end_count : Option Int := none
  custom_unit : Option CustomUnit := none
deriving DecidableEq, Repr

/-- `!rule.days_of_week || rule.days_of_week.length === 0`. -/
def daysOfWeekMissing (r : RecurrenceRule) : Bool :=
  match r.days_of_week with
  | none => true
  | some l => l.isEmpty

/-- JS truthiness of `rule.day_of_month` (absent or 0 is falsy). -/
def dayOfMonthTruthy (r : RecurrenceRule) : Bool :=
  match r.day_of_month with
  | some n => n != 0
  | none => false

inductive ValidationError
  | invalidInterval | missingWeekdays | missingDayOfMonth | missingEndDate | invalidEndCount
deriving DecidableEq, Repr

/-- `RecurrenceService.validateRule`, checks in source order. -/
def validateRule (r : RecurrenceRule) : Except ValidationError Unit :=
  if r.interval < 1 then
    Except.error ValidationError.invalidInterval
  else if r.type = RecurrenceType.weekly ∧ daysOfWeekMissing r = true then
    Except.error ValidationError.missingWeekdays
  else if r.type = RecurrenceType.monthly ∧ dayOfMonthTruthy r = false then
    Except.error ValidationError.missingDayOfMonth
  else if r.end_type = RecurrenceEndType.date ∧ r.end_date = none then
    Except.error ValidationError.missingEndDate
  else if r.end_type = RecurrenceEndType.count ∧
      (match r.end_count with | none => true | some n => decide (n < 1)) = true then
    Except.error ValidationError.invalidEndCount
  else
    Except.ok ()

/-! ## Occurrence calculator (`RecurrenceService.calculateNextOccurrence`) -/

def isWorkday (d : DateTime) : Bool :=
  let day := getDay d
  day != 0 && day != 6

def isWeekendDay (d : DateTime) : Bool :=
  let day := getDay d
  day == 0 || day == 6

/-- One pass of the day-at-a-time search of the workdays/weekends loops:
step forward one day at a time until `p` holds, giving up after `fuel` days. -/
def findNextSat (p : DateTime → Bool) : Nat → DateTime → Option DateTime
  | 0, _ => none
  | Nat.succ fuel, d =>
    let d1 := addDays 1 d
    if p d1 then some d1 else findNextSat p fuel d1

/-- The next day satisfying `p`.  For the weekday predicates above a match
always exists within 7 days (see the termination theorem), so the 7-day search
bound is never hit; the default arm is unreachable for them. -/
def nextSat (p : DateTime → Bool) (d : DateTime) : DateTime :=
  match findNextSat p 7 d with
  | some x => x
  | none => addDays 7 d

/-- The `while (added < rule.interval)` loops of the workdays/weekends cases:
advance day by day, counting only days satisfying `p`, `k` times. -/
def addCounted (p : DateTime → Bool) : Nat → DateTime → DateTime
  | 0, d => d
  | Nat.succ k, d => addCounted p k (nextSat p d)

def insertSorted (x : Int) : List Int → List Int
  | [] => [x]
  | y :: ys => if x ≤ y then x :: y :: ys else y :: insertSorted x ys

/-- `[...targetDays].sort((a, b) => a - b)`: ascending numeric sort. -/
def sortInts : List Int → List Int
  | [] => []
  | x :: xs => insertSorted x (sortInts xs)

/-- The `switch (rule.type)` of `calculateNextOccurrence`: the stepped
candidate date, before the end-date check. -/
def stepOccurrence (rule : RecurrenceRule) (lastOccurrence : DateTime) : Option DateTime :=
  match rule.type with
  | RecurrenceType.daily =>
    some (addDays rule.interval lastOccurrence)
  | RecurrenceType.weekly =>
    let targetDays := rule.days_of_week.getD []
    if targetDays.isEmpty then
      some (addDays (rule.interval * 7) lastOccurrence)
    else
      let currentDay0 := getDay lastOccurrence
      let currentDay := if currentDay0 = 0 then 7 else currentDay0
      let sortedDays := sortInts targetDays
      match sortedDays.find? (fun dd => decide (currentDay < dd)) with
      | some nextDay => some (addDays (nextDay - currentDay) lastOccurrence)
      | none =>
        let nextDay := sortedDays.headD 0
        some (addDays ((7 - currentDay + nextDay) + (rule.interval - 1) * 7) lastOccurrence)
  | RecurrenceType.monthly =>
    if dayOfMonthTruthy rule = true then
      some (setDayOfMonth (rule.day_of_month.getD 0) (setMonthAdd rule.interval lastOccurrence))
    else
      some (setMonthAdd rule.interval lastOccurrence)
  | RecurrenceType.yearly =>
    some (setYearAdd rule.interval lastOccurrence)
  | RecurrenceType.workdays =>
    some (addCounted isWorkday rule.interval.toNat lastOccurrence)
  | RecurrenceType.weekends =>
    some (addCounted isWeekendDay rule.interval.toNat lastOccurrence)
  | RecurrenceType.custom =>
    some (addDays rule.interval lastOccurrence)

/-- `RecurrenceService.calculateNextOccurrence`: step per the rule kind, then
return `none` instead of the date when an `UntilDate` end is exceeded.
The `_startDate` parameter is unused, as in the source. -/
def calculateNextOccurrence (rule : RecurrenceRule) (lastOccurrence : DateTime)
    (_startDate : DateTime) : Option DateTime :=
  match stepOccurrence rule lastOccurrence with
  | none => none
  | some next =>
    match rule.end_type, rule.end_date with
    | RecurrenceEndType.date, some endDate =>
      if toMins endDate < toMins next then none else some next
    | _, _ => some next

/-- `RecurrenceService.shouldContinue`. -/
def shouldContinue (rule : RecurrenceRule) (occurrenceCount : Int) (currentDate : DateTime) : Bool :=
  if rule.end_type = RecurrenceEndType.never then
    true
  else
    match rule.end_type, rule.end_date with
    | RecurrenceEndType.date, some endDate => decide (toMins currentDate ≤ toMins endDate)
    | _, _ =>
      match rule.end_type, rule.end_count with
      | RecurrenceEndType.count, some n =>
        if n = 0 then true else decide (occurrenceCount < n)
      | _, _ => true

/-! ## Instance materializer (`TaskInstanceService.generateInstances`) -/

structure TaskInstance where
  id : String
  parent_task_id : String
  scheduled_date : DateTime
  status : String
  is_modified : Bool
  modified_title : Option String := none
  modified_description : Option String := none
  modified_time : Option String := none
  created_at : String := ""
deriving DecidableEq, Repr

/-- `toISOString().split('T')[0]`: truncation to day granularity, the
deduplication key of the materializer. -/
def dedupKey (d : DateTime) : Int := d.days

/-- The per-call context of the generation loop: everything that stays fixed
while the loop runs (`existingDates` is the dedup snapshot taken in step 1 and
never updated during the loop, as in the source). -/
structure GenEnv where
  rule : RecurrenceRule
  taskId : String
  idGen : Int → String
  nowStr : String
  existingDates : List Int
  endDate : DateTime
  startDate : DateTime
  maxInstances : Int

def newInstance (env : GenEnv) (occurrenceCount : Int) (currentDate : DateTime) : TaskInstance :=
  { id := env.idGen occurrenceCount
    parent_task_id := env.taskId
    scheduled_date := currentDate
    status := "planned"
    is_modified := false
    created_at := env.nowStr }

/-- The `while (occurrenceCount < maxInstances && currentDate <= endDate)`
generation loop.  `fuel` is only a totality device: every iteration increments
`occurrenceCount`, which the guard bounds by `maxInstances`, so fuel
`maxInstances.toNat` is always enough (proved in the termination theorem). -/
def genLoop (env : GenEnv) : Nat → DateTime → Int → List TaskInstance
  | 0, _, _ => []
  | Nat.succ fuel, currentDate, occurrenceCount =>
    if occurrenceCount < env.maxInstances ∧ toMins currentDate ≤ toMins env.endDate then
      if shouldContinue env.rule occurrenceCount currentDate then
        let created : List TaskInstance :=
          if dedupKey currentDate ∈ env.existingDates then []
          else [newInstance env occurrenceCount currentDate]
        match calculateNextOccurrence env.rule currentDate env.startDate with
        | none => created
        | some nextDate => created ++ genLoop env fuel nextDate (occurrenceCount + 1)
      else []
    else []

/-- `TaskInstanceService.generateInstances`, as the pure function of the rule,
the dedup snapshot of existing instances, the series start, the reference
`now`, and the `maxInstances`/`daysAhead` budget.  Fresh ids come from `idGen`
(nanoid made explicit) and `nowStr` is the creation timestamp string. -/
def generateInstances (rule : RecurrenceRule) (taskId : String) (idGen : Int → String)
    (nowStr : String) (existingInstances : List TaskInstance) (startDate : DateTime)
    (now : DateTime) (maxInstances : Int) (daysAhead : Int) : List TaskInstance :=
  let existingDates := existingInstances.map (fun inst => dedupKey inst.scheduled_date)
  let endDate := addDays daysAhead now
  genLoop
    { rule := rule, taskId := taskId, idGen := idGen, nowStr := nowStr,
      existingDates := existingDates, endDate := endDate, startDate := startDate,
      maxInstances := maxInstances }
    maxInstances.toNat startDate 0

/-! ## Rule persistence (`RecurrenceService.createRule`) -/

structure TaskRow where
  id : String
  is_recurring : Bool
  recurrence_rule_id : Option String
deriving DecidableEq, Repr

structure RuleRow where
  id : String
  task_id : String
  rule : RecurrenceRule
deriving DecidableEq, Repr

structure DB where
  recurrence_rules : List RuleRow
  tasks : List TaskRow
deriving DecidableEq, Repr

/-- `RecurrenceService.createRule`: validate (throwing leaves the store
untouched), then insert the rule row and mark the owning task recurring. -/
def createRule (db : DB) (taskId : String) (ruleId : String) (rule : RecurrenceRule) :
    Except ValidationError RecurrenceRule × DB :=
  match validateRule rule with
  | Except.error e => (Except.error e, db)
  | Except.ok _ =>
    let db1 : DB :=
      { recurrence_rules := db.recurrence_rules ++ [{ id := ruleId, task_id := taskId, rule := rule }]
        tasks := db.tasks.map (fun t =>
          if t.id = taskId then { t with is_recurring := true, recurrence_rule_id := some ruleId }
          else t) }
    (Except.ok rule, db1)

/-! ## Instance override layer (`TaskInstanceService.updateInstance`) -/

structure InstanceUpdates where
  status : Option String := none
  modified_title : Option String := none
  modified_description : Option String := none
  modified_time : Option String := none
deriving DecidableEq, Repr

/-- The SQL `UPDATE ... SET` built by `updateInstance`, applied to one row:
each supplied field is written, and supplying any of the three override fields
also writes `is_modified = 1`. -/
def applyUpdates (updates : InstanceUpdates) (inst : TaskInstance) : TaskInstance :=
  let i1 :=
    match updates.status with
    | some s => { inst with status := s }
    | none => inst
  let i2 :=
    match updates.modified_title with
    | some v => { i1 with modified_title := some v, is_modified := true }
    | none => i1
  let i3 :=
    match updates.modified_description with
    | some v => { i2 with modified_description := some v, is_modified := true }
    | none => i2
  match updates.modified_time with
  | some v => { i3 with modified_time := some v, is_modified := true }
  | none => i3

/-- The stored state `updateInstance` can touch: the task's instance rows plus
the stored recurrence rule of the series. -/
structure InstanceStore where
  rule : RecurrenceRule
  instances : List TaskInstance
deriving DecidableEq, Repr

/-- `TaskInstanceService.updateInstance`: the SQL statement updates exactly
the rows whose id matches `instanceId`. -/
def updateInstance (store : InstanceStore) (instanceId : String)
    (updates : InstanceUpdates) : InstanceStore :=
  { store with
      instances := store.instances.map (fun i =>
        if i.id = instanceId then applyUpdates updates i else i) }

/-- Follows the spec's words for the Custom stepping rule: advance by
`interval` units of `customUnit` (hours/days/weeks/months), calendar-correct
for weeks and months.  Stated for comparison with `stepOccurrence`, which is
the source's behavior. -/
def specCustomNext (u : CustomUnit) (interval : Int) (d : DateTime) : DateTime :=
  match u with
  | CustomUnit.hours => ofMins (toMins d + 60 * interval)
  | CustomUnit.days => addDays interval d
  | CustomUnit.weeks => addDays (7 * interval) d
  | CustomUnit.months => setMonthAdd interval d

/-! ## Concrete inputs used by counterexamples and witnesses -/

/-- Midnight of 1970-01-01 (day index 0), a Thursday. -/
def epochD : DateTime := ⟨0, 0⟩

/-- Midnight of 1970-01-04 (day index 3), a Sunday. -/
def sundayD : DateTime := ⟨3, 0⟩

/-- Midnight of 1970-01-05 (day index 4), a Monday. -/
def mondayD : DateTime := ⟨4, 0⟩

/-- Weekly rule of the tie-break example: every 2 weeks on Monday and
Wednesday, i.e. `days_of_week = [0, 2]` with 0 = Monday. -/
def weeklyMonWed : RecurrenceRule :=
  { type := RecurrenceType.weekly, interval := 2, days_of_week := some [0, 2],
    end_type := RecurrenceEndType.never }

/-- Weekly rule: every week on Monday only (`days_of_week = [0]`). -/
def weeklyMon : RecurrenceRule :=
  { type := RecurrenceType.weekly, interval := 1, days_of_week := some [0],
    end_type := RecurrenceEndType.never }

/-- Daily rule with no end condition. -/
def dailyNever : RecurrenceRule :=
  { type := RecurrenceType.daily, interval := 1, end_type := RecurrenceEndType.never }

/-- Daily rule ending after 3 occurrences. -/
def dailyCount3 : RecurrenceRule :=
  { type := RecurrenceType.daily, interval := 1, end_type := RecurrenceEndType.count,
    end_count := some 3 }

/-- Daily rule ending at day index 10. -/
def dailyUntil10 : RecurrenceRule :=
  { type := RecurrenceType.daily, interval := 1, end_type := RecurrenceEndType.date,
    end_date := some ⟨10, 0⟩ }

/-- Weekly rule with an empty weekday set and interval 0. -/
def weeklyEmptyZero : RecurrenceRule :=
  { type := RecurrenceType.weekly, interval := 0, days_of_week := some [],
    end_type := RecurrenceEndType.never }

/-- Weekly rule with an empty weekday set and interval 1. -/
def weeklyEmptyOne : RecurrenceRule :=
  { type := RecurrenceType.weekly, interval := 1, days_of_week := some [],
    end_type := RecurrenceEndType.never }

/-- Custom rule: every 1 hour (`custom_unit = hours`). -/
def customHours1 : RecurrenceRule :=
  { type := RecurrenceType.custom, interval := 1, end_type := RecurrenceEndType.never,
    custom_unit := some CustomUnit.hours }

/-- A concrete generation context for witnesses. -/
def envW : GenEnv :=
  { rule := dailyNever, taskId := "t", idGen := fun _ => "i", nowStr := "now",
    existingDates := [], endDate := ⟨90, 0⟩, startDate := epochD, maxInstances := 5 }

/-! ## Basic date lemmas -/

theorem addDays_addDays (a b : Int) (d : DateTime) :
    addDays a (addDays b d) = addDays (b + a) d := by
  simp [addDays, Int.add_assoc]

theorem toMins_addDays (n : Int) (d : DateTime) :
    toMins (addDays n d) = toMins d + n * 1440 := by
  simp [toMins, addDays]
  ring

/-! ## Claim theorems -/

/-- C2: failing-input evaluation of the weekly tie-break.  For the validated
rule {kind: Weekly, interval: 2, daysOfWeek: [0, 2]} (Monday and Wednesday,
0 = Monday per the data model) and a Monday `lastOccurrence`, the calculator
steps to the very next day — a Tuesday (JS weekday 2) — and not to the same
week's Wednesday (the day after, index 6 here) that the claim requires: the
0-based `days_of_week` indices are compared against a 1 = Monday .. 7 = Sunday
current-day scale. -/
theorem weekly_tiebreak_code_bug :
    validateRule weeklyMonWed = Except.ok ()
    ∧ getDay mondayD = 1
    ∧ calculateNextOccurrence weeklyMonWed mondayD mondayD = some (DateTime.mk 5 0)
    ∧ getDay (DateTime.mk 5 0) = 2
    ∧ calculateNextOccurrence weeklyMonWed mondayD mondayD ≠ some (DateTime.mk 6 0) := by
  decide

/-- C3: failing-input evaluation of monotonicity.  The validated weekly rule
on Monday only (`days_of_week = [0]`, interval 1), stepped from a Sunday,
returns the same Sunday — not a date strictly after `lastOccurrence` — and a
`GenerateInstances` call starting there materializes the same `scheduledDate`
three times in one call, so the returned dates are not strictly increasing. -/
theorem monotonicity_code_bug :
    validateRule weeklyMon = Except.ok ()
    ∧ getDay sundayD = 0
    ∧ calculateNextOccurrence weeklyMon sundayD sundayD = some sundayD
    ∧ (generateInstances weeklyMon "t" (fun _ => "i") "now" [] sundayD sundayD 3 90).map
        (fun inst => inst.scheduled_date) = [sundayD, sundayD, sundayD] := by
  decide

/-- C6 counterexample: a valid Daily rule with no end condition whose series
start (day 364) is not after now + daysAhead (day 365), for which
`GenerateInstances(maxInstances = 5, daysAhead = 365)` on a task with no
pre-existing instances returns 2 instances, not 5: the date ceiling stops the
walk first. -/
theorem budget_cap_counterexample :
    validateRule dailyNever = Except.ok ()
    ∧ toMins (DateTime.mk 364 0) ≤ toMins (addDays 365 epochD)
    ∧ (generateInstances dailyNever "t" (fun _ => "i") "now" [] (DateTime.mk 364 0)
        epochD 5 365).length = 2 := by
  decide

/-- C7 counterexample: the rule {kind: Weekly, daysOfWeek: [], interval: 0} is
weekly with an empty weekday set, yet `Validate` fails with `InvalidInterval`,
not `MissingWeekdays` — the interval check runs first. -/
theorem weekly_validation_counterexample :
    weeklyEmptyZero.type = RecurrenceType.weekly
    ∧ daysOfWeekMissing weeklyEmptyZero = true
    ∧ validateRule weeklyEmptyZero = Except.error ValidationError.invalidInterval
    ∧ validateRule weeklyEmptyZero ≠ Except.error ValidationError.missingWeekdays := by
  decide

/-- C8 counterexample: for a Custom rule with `customUnit = Hours` and
interval 1, the calculator advances by 1 day, not by 1 hour as the claim
(stepping by `interval` units of `customUnit`) requires. -/
theorem custom_unit_counterexample :
    customHours1.custom_unit = some CustomUnit.hours
    ∧ calculateNextOccurrence customHours1 epochD epochD = some (addDays 1 epochD)
    ∧ addDays 1 epochD ≠ specCustomNext CustomUnit.hours 1 epochD := by
  decide

/-- Instances created by the generation loop never carry a day key that was
already in the dedup snapshot: creation is guarded by the snapshot test and
the snapshot is fixed for the whole loop. -/
theorem genLoop_created_fresh (env : GenEnv) :
    ∀ (fuel : Nat) (cur : DateTime) (occ : Int), ∀ inst ∈ genLoop env fuel cur occ,
      dedupKey inst.scheduled_date ∉ env.existingDates := by
  intro fuel
  induction fuel with
  | zero =>
    intro cur occ inst hmem
    simp [genLoop] at hmem
  | succ f ih =>
    intro cur occ inst hmem
    by_cases hg : occ < env.maxInstances ∧ toMins cur ≤ toMins env.endDate
    · by_cases hc : shouldContinue env.rule occ cur = true
      · cases hnx : calculateNextOccurrence env.rule cur env.startDate with
        | none =>
          simp only [genLoop, if_pos hg, if_pos hc, hnx] at hmem
          by_cases hdk : dedupKey cur ∈ env.existingDates
          · simp [hdk] at hmem
          · simp [hdk] at hmem
            subst hmem
            simpa [newInstance] using hdk
        | some nxt =>
          simp only [genLoop, if_pos hg, if_pos hc, hnx] at hmem
          rcases List.mem_append.mp hmem with hmem1 | hmem2
          · by_cases hdk : dedupKey cur ∈ env.existingDates
            · simp [hdk] at hmem1
            · simp [hdk] at hmem1
              subst hmem1
              simpa [newInstance] using hdk
          · exact ih nxt (occ + 1) inst hmem2
      · simp [genLoop, hg, hc] at hmem
    · simp [genLoop, hg] at hmem

/-- If the dedup snapshot grows to cover both the original snapshot and the
day keys of everything a run of the loop created, a rerun of the same loop
creates nothing: every candidate date it visits is already covered. -/
theorem genLoop_superset_empty (env env2 : GenEnv)
    (hr : env2.rule = env.rule) (hmax : env2.maxInstances = env.maxInstances)
    (hend : env2.endDate = env.endDate) (hstart : env2.startDate = env.startDate)
    (hsub : ∀ x, x ∈ env.existingDates → x ∈ env2.existingDates) :
    ∀ (fuel : Nat) (cur : DateTime) (occ : Int),
      (∀ inst ∈ genLoop env fuel cur occ, dedupKey inst.scheduled_date ∈ env2.existingDates) →
      genLoop env2 fuel cur occ = [] := by
  intro fuel
  induction fuel with
  | zero =>
    intro cur occ _
    rfl
  | succ f ih =>
    intro cur occ hout
    by_cases hg : occ < env.maxInstances ∧ toMins cur ≤ toMins env.endDate
    · by_cases hc : shouldContinue env.rule occ cur = true
      · have hm2 : dedupKey cur ∈ env2.existingDates := by
          by_cases hdk : dedupKey cur ∈ env.existingDates
          · exact hsub _ hdk
          · refine hout (newInstance env occ cur) ?_
            cases hnx : calculateNextOccurrence env.rule cur env.startDate with
            | none => simp [genLoop, hg, hc, hdk, hnx]
            | some nxt => simp [genLoop, hg, hc, hdk, hnx]
        cases hnx : calculateNextOccurrence env.rule cur env.startDate with
        | none =>
          simp [genLoop, hr, hmax, hend, hstart, hg, hc, hm2, hnx]
        | some nxt =>
          have hout2 : ∀ inst ∈ genLoop env f nxt (occ + 1),
              dedupKey inst.scheduled_date ∈ env2.existingDates := by
            intro inst hi
            refine hout inst ?_
            have hshape : genLoop env (f + 1) cur occ =
                (if dedupKey cur ∈ env.existingDates then ([] : List TaskInstance)
                  else [newInstance env occ cur]) ++ genLoop env f nxt (occ + 1) := by
              simp [genLoop, hg, hc, hnx]
            rw [hshape]
            exact List.mem_append_right _ hi
          have hrec := ih nxt (occ + 1) hout2
          simp [genLoop, hr, hmax, hend, hstart, hg, hc, hm2, hnx, hrec]
      · simp [genLoop, hr, hmax, hend, hstart, hg, hc]
    · simp [genLoop, hr, hmax, hend, hstart, hg]

/-- C1: idempotent generation.  Re-invoking `GenerateInstances` with the same
rule, series start, reference now, `maxInstances` and `daysAhead`, against the
instances on record after the first call, returns an empty delta; and a call
only ever materializes candidate dates whose day-truncated form is absent
from the dedup snapshot of existing instances. -/
theorem generate_idempotent (rule : RecurrenceRule) (taskId taskId2 : String)
    (idGen idGen2 : Int → String) (nowStr nowStr2 : String) (existing : List TaskInstance)
    (startDate now : DateTime) (maxInstances daysAhead : Int)
    (_hvalid : validateRule rule = Except.ok ()) :
    generateInstances rule taskId2 idGen2 nowStr2
        (existing ++ generateInstances rule taskId idGen nowStr existing startDate now
          maxInstances daysAhead)
        startDate now maxInstances daysAhead = []
    ∧ ∀ inst ∈ generateInstances rule taskId idGen nowStr existing startDate now
        maxInstances daysAhead,
        dedupKey inst.scheduled_date ∉ existing.map (fun i => dedupKey i.scheduled_date) := by
  constructor
  · simp only [generateInstances]
    refine genLoop_superset_empty
      { rule := rule, taskId := taskId, idGen := idGen, nowStr := nowStr,
        existingDates := existing.map (fun inst => dedupKey inst.scheduled_date),
        endDate := addDays daysAhead now, startDate := startDate,
        maxInstances := maxInstances }
      _ ?_ ?_ ?_ ?_ ?_ _ _ _ ?_
    · rfl
    · rfl
    · rfl
    · rfl
    · intro x hx
      show x ∈ List.map (fun inst => dedupKey inst.scheduled_date) (existing ++ _)
      simp only [List.map_append]
      exact List.mem_append_left _ hx
    · intro inst hi
      show dedupKey inst.scheduled_date ∈
        List.map (fun inst => dedupKey inst.scheduled_date) (existing ++ _)
      simp only [List.map_append]
      exact List.mem_append_right _ (List.mem_map_of_mem _ hi)
  · intro inst hi
    simp only [generateInstances] at hi
    exact genLoop_created_fresh _ _ _ _ inst hi

/-- Witness for C1 at a concrete daily rule and window. -/
theorem generate_idempotent_witness :
    generateInstances dailyNever "t" (fun _ => "j") "now2"
        ([] ++ generateInstances dailyNever "t" (fun _ => "i") "now" [] epochD epochD 5 365)
        epochD epochD 5 365 = []
    ∧ ∀ inst ∈ generateInstances dailyNever "t" (fun _ => "i") "now" [] epochD epochD 5 365,
        dedupKey inst.scheduled_date ∉ ([] : List TaskInstance).map (fun i => dedupKey i.scheduled_date) :=
  generate_idempotent dailyNever "t" "t" (fun _ => "i") (fun _ => "j") "now" "now2" []
    epochD epochD 5 365 (by decide)

/-- For an `AfterCount(n)` rule with `n ≥ 1`, `shouldContinue` is exactly the
test `occurrenceCount < n`, whatever `end_date` holds. -/
theorem shouldContinue_count (rule : RecurrenceRule) (n : Int)
    (het : rule.end_type = RecurrenceEndType.count) (hec : rule.end_count = some n)
    (hn : 1 ≤ n) (occ : Int) (cur : DateTime) :
    (shouldContinue rule occ cur = true ↔ occ < n) := by
  have hne : ¬ (n = 0) := by omega
  simp [shouldContinue, het, hec, hne]

/-- Each loop iteration consumes one unit of the `occurrenceCount < n` budget
of an `AfterCount(n)` end condition and creates at most one instance. -/
theorem genLoop_count_le (env : GenEnv) (n : Int)
    (het : env.rule.end_type = RecurrenceEndType.count) (hec : env.rule.end_count = some n)
    (hn : 1 ≤ n) :
    ∀ (fuel : Nat) (cur : DateTime) (occ : Int),
      (genLoop env fuel cur occ).length ≤ (n - occ).toNat := by
  intro fuel
  induction fuel with
  | zero =>
    intro cur occ
    simp [genLoop]
  | succ f ih =>
    intro cur occ
    by_cases hg : occ < env.maxInstances ∧ toMins cur ≤ toMins env.endDate
    · by_cases hc : shouldContinue env.rule occ cur = true
      · have hocc : occ < n := (shouldContinue_count env.rule n het hec hn occ cur).mp hc
        cases hnx : calculateNextOccurrence env.rule cur env.startDate with
        | none =>
          by_cases hdk : dedupKey cur ∈ env.existingDates
          · simp [genLoop, hg, hc, hnx, hdk]
          · simp [genLoop, hg, hc, hnx, hdk]
            omega
        | some nxt =>
          have hrec := ih nxt (occ + 1)
          by_cases hdk : dedupKey cur ∈ env.existingDates
          · simp only [genLoop, if_pos hg, if_pos hc, hnx, if_pos hdk,
              List.nil_append]
            omega
          · simp only [genLoop, if_pos hg, if_pos hc, hnx, if_neg hdk,
              List.singleton_append, List.length_cons]
            omega
      · simp [genLoop, hg, hc]
    · simp [genLoop, hg]

/-- C4: end-by-count.  For a rule with `endCondition = AfterCount(n)`,
`n ≥ 1`, one `GenerateInstances` call yields at most `n` instances whatever
`maxInstances` and `daysAhead` are, and `ShouldContinue` holds exactly when
`occurrenceCount < n`. -/
theorem end_by_count (rule : RecurrenceRule) (n : Int)
    (het : rule.end_type = RecurrenceEndType.count) (hec : rule.end_count = some n)
    (hn : 1 ≤ n) (taskId : String) (idGen : Int → String) (nowStr : String)
    (existing : List TaskInstance) (startDate now : DateTime) (maxInstances daysAhead : Int) :
    (generateInstances rule taskId idGen nowStr existing startDate now
        maxInstances daysAhead).length ≤ n.toNat
    ∧ ∀ (occ : Int) (cur : DateTime), (shouldContinue rule occ cur = true ↔ occ < n) := by
  constructor
  · simp only [generateInstances]
    have h := genLoop_count_le
      { rule := rule, taskId := taskId, idGen := idGen, nowStr := nowStr,
        existingDates := existing.map (fun inst => dedupKey inst.scheduled_date),
        endDate := addDays daysAhead now, startDate := startDate,
        maxInstances := maxInstances }
      n het hec hn maxInstances.toNat startDate 0
    simpa using h
  · intro occ cur
    exact shouldContinue_count rule n het hec hn occ cur

/-- Witness for C4 at the concrete `AfterCount(3)` daily rule. -/
theorem end_by_count_witness :
    (generateInstances dailyCount3 "t" (fun _ => "i") "now" [] epochD epochD 30 90).length
        ≤ (3 : Int).toNat
    ∧ ∀ (occ : Int) (cur : DateTime), (shouldContinue dailyCount3 occ cur = true ↔ occ < 3) :=
  end_by_count dailyCount3 3 rfl rfl (by decide) "t" (fun _ => "i") "now" [] epochD epochD 30 90

/-- For an `UntilDate(D)` rule, every date the calculator returns is at most
`D`: the post-step check filters anything later. -/
theorem calculateNextOccurrence_le_endDate (rule : RecurrenceRule) (D : DateTime)
    (het : rule.end_type = RecurrenceEndType.date) (hed : rule.end_date = some D)
    (last start d : DateTime) (h : calculateNextOccurrence rule last start = some d) :
    toMins d ≤ toMins D := by
  unfold calculateNextOccurrence at h
  cases hstep : stepOccurrence rule last with
  | none => simp [hstep] at h
  | some next =>
    rw [hstep] at h
    simp only [het, hed] at h
    by_cases hgt : toMins D < toMins next
    · simp [hgt] at h
    · simp [hgt] at h
      subst h
      omega

/-- Every instance a loop run creates under an `UntilDate(D)` end condition is
scheduled at or before `D`, because creation is guarded by `shouldContinue`. -/
theorem genLoop_date_le (env : GenEnv) (D : DateTime)
    (het : env.rule.end_type = RecurrenceEndType.date) (hed : env.rule.end_date = some D) :
    ∀ (fuel : Nat) (cur : DateTime) (occ : Int), ∀ inst ∈ genLoop env fuel cur occ,
      toMins inst.scheduled_date ≤ toMins D := by
  intro fuel
  induction fuel with
  | zero =>
    intro cur occ inst hmem
    simp [genLoop] at hmem
  | succ f ih =>
    intro cur occ inst hmem
    by_cases hg : occ < env.maxInstances ∧ toMins cur ≤ toMins env.endDate
    · by_cases hc : shouldContinue env.rule occ cur = true
      · have hcur : toMins cur ≤ toMins D := by
          simp [shouldContinue, het, hed] at hc
          exact hc
        cases hnx : calculateNextOccurrence env.rule cur env.startDate with
        | none =>
          simp only [genLoop, if_pos hg, if_pos hc, hnx] at hmem
          by_cases hdk : dedupKey cur ∈ env.existingDates
          · simp [hdk] at hmem
          · simp [hdk] at hmem
            subst hmem
            simpa [newInstance] using hcur
        | some nxt =>
          simp only [genLoop, if_pos hg, if_pos hc, hnx] at hmem
          rcases List.mem_append.mp hmem with hmem1 | hmem2
          · by_cases hdk : dedupKey cur ∈ env.existingDates
            · simp [hdk] at hmem1
            · simp [hdk] at hmem1
              subst hmem1
              simpa [newInstance] using hcur
          · exact ih nxt (occ + 1) inst hmem2
      · simp [genLoop, hg, hc] at hmem
    · simp [genLoop, hg] at hmem

/-- C5: end-by-date.  For a rule with `endCondition = UntilDate(D)`: whenever
the stepped candidate is strictly after `D` the calculator returns `none`
instead of the date; any date it does return is at most `D`; and no instance
produced by `GenerateInstances` for the rule is scheduled after `D`. -/
theorem end_by_date (rule : RecurrenceRule) (D : DateTime)
    (het : rule.end_type = RecurrenceEndType.date) (hed : rule.end_date = some D)
    (taskId : String) (idGen : Int → String) (nowStr : String)
    (existing : List TaskInstance) (startDate now : DateTime) (maxInstances daysAhead : Int) :
    (∀ (last start next : DateTime), stepOccurrence rule last = some next →
        toMins D < toMins next → calculateNextOccurrence rule last start = none)
    ∧ (∀ (last start d : DateTime), calculateNextOccurrence rule last start = some d →
        toMins d ≤ toMins D)
    ∧ (∀ inst ∈ generateInstances rule taskId idGen nowStr existing startDate now
        maxInstances daysAhead, toMins inst.scheduled_date ≤ toMins D) := by
  refine ⟨?_, ?_, ?_⟩
  · intro last start next hstep hgt
    unfold calculateNextOccurrence
    rw [hstep]
    simp [het, hed, hgt]
  · intro last start d h
    exact calculateNextOccurrence_le_endDate rule D het hed last start d h
  · intro inst hi
    simp only [generateInstances] at hi
    exact genLoop_date_le _ D het hed _ _ _ inst hi

/-- Witness for C5 at the concrete `UntilDate(day 10)` daily rule. -/
theorem end_by_date_witness :
    (∀ (last start next : DateTime), stepOccurrence dailyUntil10 last = some next →
        toMins (DateTime.mk 10 0) < toMins next →
        calculateNextOccurrence dailyUntil10 last start = none)
    ∧ (∀ (last start d : DateTime), calculateNextOccurrence dailyUntil10 last start = some d →
        toMins d ≤ toMins (DateTime.mk 10 0))
    ∧ (∀ inst ∈ generateInstances dailyUntil10 "t" (fun _ => "i") "now" [] epochD epochD 30 90,
        toMins inst.scheduled_date ≤ toMins (DateTime.mk 10 0)) :=
  end_by_date dailyUntil10 (DateTime.mk 10 0) rfl rfl "t" (fun _ => "i") "now" [] epochD epochD
    30 90

/-- Each loop iteration creates at most one instance, so a run bounded by
`fuel` iterations creates at most `fuel` instances. -/
theorem genLoop_length_le (env : GenEnv) :
    ∀ (fuel : Nat) (cur : DateTime) (occ : Int), (genLoop env fuel cur occ).length ≤ fuel := by
  intro fuel
  induction fuel with
  | zero =>
    intro cur occ
    simp [genLoop]
  | succ f ih =>
    intro cur occ
    by_cases hg : occ < env.maxInstances ∧ toMins cur ≤ toMins env.endDate
    · by_cases hc : shouldContinue env.rule occ cur = true
      · cases hnx : calculateNextOccurrence env.rule cur env.startDate with
        | none =>
          by_cases hdk : dedupKey cur ∈ env.existingDates <;>
            simp [genLoop, hg, hc, hnx, hdk]
        | some nxt =>
          have hrec := ih nxt (occ + 1)
          by_cases hdk : dedupKey cur ∈ env.existingDates
          · simp only [genLoop, if_pos hg, if_pos hc, hnx, if_pos hdk, List.nil_append]
            omega
          · simp only [genLoop, if_pos hg, if_pos hc, hnx, if_neg hdk,
              List.singleton_append, List.length_cons]
            omega
      · simp [genLoop, hg, hc]
    · simp [genLoop, hg]

/-- On a Daily rule with no end condition and an empty dedup snapshot, a loop
run creates exactly one instance per unit of fuel as long as every candidate
date `cur + i·interval` days stays at or before the ceiling. -/
theorem genLoop_daily_full (env : GenEnv)
    (het : env.rule.type = RecurrenceType.daily)
    (hen : env.rule.end_type = RecurrenceEndType.never)
    (hex : env.existingDates = []) :
    ∀ (fuel : Nat) (cur : DateTime) (occ : Int), (fuel : Int) ≤ env.maxInstances - occ →
      (∀ i : Nat, i < fuel → toMins (addDays ((i : Int) * env.rule.interval) cur)
        ≤ toMins env.endDate) →
      (genLoop env fuel cur occ).length = fuel := by
  intro fuel
  induction fuel with
  | zero =>
    intro cur occ _ _
    simp [genLoop]
  | succ f ih =>
    intro cur occ hfuel hceil
    have hocc : occ < env.maxInstances := by
      push_cast at hfuel
      omega
    have hcur : toMins cur ≤ toMins env.endDate := by
      have h0 := hceil 0 (Nat.succ_pos f)
      simpa [toMins_addDays] using h0
    have hc : shouldContinue env.rule occ cur = true := by
      simp [shouldContinue, hen]
    have hnx : calculateNextOccurrence env.rule cur env.startDate
        = some (addDays env.rule.interval cur) := by
      simp [calculateNextOccurrence, stepOccurrence, het, hen]
    have hdk : dedupKey cur ∉ env.existingDates := by
      simp [hex]
    have hceil2 : ∀ i : Nat, i < f →
        toMins (addDays ((i : Int) * env.rule.interval) (addDays env.rule.interval cur))
          ≤ toMins env.endDate := by
      intro i hi
      have h1 := hceil (i + 1) (by omega)
      rw [addDays_addDays]
      have harith : env.rule.interval + (i : Int) * env.rule.interval
          = ((i : Int) + 1) * env.rule.interval := by ring
      rw [harith]
      push_cast at h1
      exact h1
    have hfuel2 : (f : Int) ≤ env.maxInstances - (occ + 1) := by
      push_cast at hfuel
      omega
    have hrec := ih (addDays env.rule.interval cur) (occ + 1) hfuel2 hceil2
    simp only [genLoop, if_pos (And.intro hocc hcur), if_pos hc, hnx, if_neg hdk,
      List.singleton_append, List.length_cons, hrec]

/-- C6 (amended): the budget cap.  One `GenerateInstances` call never returns
more than `maxInstances` instances — the cap is one of its stopping
conditions — and on a task with no pre-existing instances, a Daily rule
(interval ≥ 1) with no end condition and arguments `maxInstances = 5`,
`daysAhead = 365` returns exactly 5 instances provided the fifth candidate
date, `start + 4·interval` days, is not after `now + daysAhead`. -/
theorem budget_cap (rule : RecurrenceRule) (taskId : String) (idGen : Int → String)
    (nowStr : String) (startDate now : DateTime)
    (het : rule.type = RecurrenceType.daily) (hen : rule.end_type = RecurrenceEndType.never)
    (hi : 1 ≤ rule.interval)
    (hceil : toMins (addDays (4 * rule.interval) startDate) ≤ toMins (addDays 365 now)) :
    (∀ (rule2 : RecurrenceRule) (existing : List TaskInstance) (maxI daysA : Int),
        (generateInstances rule2 taskId idGen nowStr existing startDate now
          maxI daysA).length ≤ maxI.toNat)
    ∧ (generateInstances rule taskId idGen nowStr [] startDate now 5 365).length = 5 := by
  constructor
  · intro rule2 existing maxI daysA
    simp only [generateInstances]
    exact genLoop_length_le _ maxI.toNat startDate 0
  · simp only [generateInstances]
    refine genLoop_daily_full
      { rule := rule, taskId := taskId, idGen := idGen, nowStr := nowStr,
        existingDates := ([] : List TaskInstance).map (fun inst => dedupKey inst.scheduled_date),
        endDate := addDays 365 now, startDate := startDate, maxInstances := 5 }
      het hen rfl ((5 : Int).toNat) startDate 0 (by norm_num) ?_
    intro i hilt
    have hi4 : (i : Int) ≤ 4 := by omega
    show toMins (addDays ((i : Int) * rule.interval) startDate) ≤ toMins (addDays 365 now)
    rw [toMins_addDays] at hceil ⊢
    have hnn : (0 : Int) ≤ rule.interval := by omega
    have hbound : (i : Int) * rule.interval * 1440 ≤ 4 * rule.interval * 1440 := by
      have h1 : (i : Int) * rule.interval ≤ 4 * rule.interval :=
        mul_le_mul_of_nonneg_right hi4 hnn
      linarith
    linarith

/-- Witness for C6 at a concrete daily rule starting at the epoch. -/
theorem budget_cap_witness :
    (∀ (rule2 : RecurrenceRule) (existing : List TaskInstance) (maxI daysA : Int),
        (generateInstances rule2 "t" (fun _ => "i") "now" existing epochD epochD
          maxI daysA).length ≤ maxI.toNat)
    ∧ (generateInstances dailyNever "t" (fun _ => "i") "now" [] epochD epochD 5 365).length = 5 :=
  budget_cap dailyNever "t" (fun _ => "i") "now" epochD epochD rfl rfl (by decide) (by decide)

/-- C7 (amended): weekly validation is rejecting and atomic.  For rules that
pass the earlier interval check (`interval ≥ 1`), `Validate` fails with
`MissingWeekdays` exactly when the rule is weekly with an absent or empty
`daysOfWeek`; and `CreateRule` on such a rule returns that error and leaves
the store untouched — no rule row is inserted and no task is modified. -/
theorem weekly_validation (rule : RecurrenceRule) (hi : 1 ≤ rule.interval)
    (db : DB) (taskId ruleId : String) :
    (validateRule rule = Except.error ValidationError.missingWeekdays
      ↔ (rule.type = RecurrenceType.weekly ∧ daysOfWeekMissing rule = true))
    ∧ (rule.type = RecurrenceType.weekly → daysOfWeekMissing rule = true →
        createRule db taskId ruleId rule
          = (Except.error ValidationError.missingWeekdays, db)) := by
  have hni : ¬ (rule.interval < 1) := by omega
  constructor
  · unfold validateRule
    rw [if_neg hni]
    by_cases h2 : rule.type = RecurrenceType.weekly ∧ daysOfWeekMissing rule = true
    · rw [if_pos h2]
      simp [h2]
    · rw [if_neg h2]
      simp only [iff_false_intro h2, iff_false]
      split_ifs <;> simp
  · intro hw hd
    have hv : validateRule rule = Except.error ValidationError.missingWeekdays := by
      unfold validateRule
      rw [if_neg hni, if_pos (And.intro hw hd)]
    simp [createRule, hv]

/-- Witness for C7 at a concrete weekly rule with interval 1 and no weekdays. -/
theorem weekly_validation_witness :
    (validateRule weeklyEmptyOne = Except.error ValidationError.missingWeekdays
      ↔ (weeklyEmptyOne.type = RecurrenceType.weekly ∧ daysOfWeekMissing weeklyEmptyOne = true))
    ∧ (weeklyEmptyOne.type = RecurrenceType.weekly → daysOfWeekMissing weeklyEmptyOne = true →
        createRule { recurrence_rules := [], tasks := [] } "t" "r" weeklyEmptyOne
          = (Except.error ValidationError.missingWeekdays,
              { recurrence_rules := [], tasks := [] })) :=
  weekly_validation weeklyEmptyOne (by decide) { recurrence_rules := [], tasks := [] } "t" "r"

/-- C8 (amended): for a Custom rule the calculator's stepped candidate is
always `lastOccurrence + interval` days, regardless of `customUnit` — the
hours/weeks/months units are not consulted. -/
theorem custom_steps_days (rule : RecurrenceRule) (last start : DateTime)
    (ht : rule.type = RecurrenceType.custom) (u : Option CustomUnit) :
    stepOccurrence rule last = some (addDays rule.interval last)
    ∧ calculateNextOccurrence { rule with custom_unit := u } last start
        = calculateNextOccurrence rule last start := by
  constructor
  · simp [stepOccurrence, ht]
  · rfl

/-- Witness for C8 at the concrete hourly Custom rule. -/
theorem custom_steps_days_witness :
    stepOccurrence customHours1 epochD = some (addDays customHours1.interval epochD)
    ∧ calculateNextOccurrence { customHours1 with custom_unit := some CustomUnit.weeks }
        epochD epochD = calculateNextOccurrence customHours1 epochD epochD :=
  custom_steps_days customHours1 epochD epochD rfl (some CustomUnit.weeks)

/-- C9: override independence and `isModified` latching.  `UpdateInstance`
leaves the stored rule unchanged, keeps all rows whose id differs from the
target byte-for-byte unchanged, and on the target row: `is_modified` ends up
true exactly when it already was true or at least one of
`modified_title`/`modified_description`/`modified_time` is supplied (so it is
never reset), and a status-only update changes `status` without touching
`is_modified`. -/
theorem override_independence (store : InstanceStore) (instanceId : String)
    (u : InstanceUpdates) (inst : TaskInstance) :
    ((updateInstance store instanceId u).rule = store.rule)
    ∧ ((updateInstance store instanceId u).instances.length = store.instances.length)
    ∧ (∀ (k : Nat) (hk : k < store.instances.length)
          (hk2 : k < (updateInstance store instanceId u).instances.length),
        (store.instances.get ⟨k, hk⟩).id ≠ instanceId →
          (updateInstance store instanceId u).instances.get ⟨k, hk2⟩
            = store.instances.get ⟨k, hk⟩)
    ∧ ((applyUpdates u inst).is_modified
        = (inst.is_modified || u.modified_title.isSome || u.modified_description.isSome
            || u.modified_time.isSome))
    ∧ ((applyUpdates u inst).status = u.status.getD inst.status)
    ∧ ((applyUpdates u inst).id = inst.id
        ∧ (applyUpdates u inst).scheduled_date = inst.scheduled_date
        ∧ (applyUpdates u inst).parent_task_id = inst.parent_task_id
        ∧ (applyUpdates u inst).created_at = inst.created_at) := by
  refine ⟨rfl, by simp [updateInstance], ?_, ?_, ?_, ?_⟩
  · intro k hk hk2 hne
    simp only [updateInstance, List.get_eq_getElem, List.getElem_map]
    rw [if_neg]
    exact hne
  · rcases u with ⟨us, ut, ud, um⟩
    cases us <;> cases ut <;> cases ud <;> cases um <;> simp [applyUpdates]
  · rcases u with ⟨us, ut, ud, um⟩
    cases us <;> cases ut <;> cases ud <;> cases um <;> simp [applyUpdates]
  · rcases u with ⟨us, ut, ud, um⟩
    cases us <;> cases ut <;> cases ud <;> cases um <;> simp [applyUpdates]

/-- Witness for C9 at a concrete two-instance store and a title override. -/
theorem override_independence_witness :
    ((updateInstance
        { rule := dailyNever,
          instances :=
            [ { id := "a", parent_task_id := "t", scheduled_date := epochD,
                status := "planned", is_modified := false },
              { id := "b", parent_task_id := "t", scheduled_date := sundayD,
                status := "planned", is_modified := false } ] }
        "a" { modified_title := some "x" }).rule = dailyNever)
    ∧ ((updateInstance
        { rule := dailyNever,
          instances :=
            [ { id := "a", parent_task_id := "t", scheduled_date := epochD,
                status := "planned", is_modified := false },
              { id := "b", parent_task_id := "t", scheduled_date := sundayD,
                status := "planned", is_modified := false } ] }
        "a" { modified_title := some "x" }).instances.get
          ⟨1, by decide⟩
        = { id := "b", parent_task_id := "t", scheduled_date := sundayD,
            status := "planned", is_modified := false }) := by
  have h := override_independence
    { rule := dailyNever,
      instances :=
        [ { id := "a", parent_task_id := "t", scheduled_date := epochD,
            status := "planned", is_modified := false },
          { id := "b", parent_task_id := "t", scheduled_date := sundayD,
            status := "planned", is_modified := false } ] }
    "a" { modified_title := some "x" }
    { id := "a", parent_task_id := "t", scheduled_date := epochD,
      status := "planned", is_modified := false }
  exact ⟨h.1, h.2.2.1 1 (by decide) (by decide) (by decide)⟩

theorem isWorkday_true_of (k : Int) (d : DateTime) (h0 : (d.days + k + 4) % 7 ≠ 0)
    (h6 : (d.days + k + 4) % 7 ≠ 6) : isWorkday (addDays k d) = true := by
  simp [isWorkday, getDay, addDays]
  omega

theorem isWorkday_false_of (k : Int) (d : DateTime)
    (h : (d.days + k + 4) % 7 = 0 ∨ (d.days + k + 4) % 7 = 6) :
    isWorkday (addDays k d) = false := by
  simp [isWorkday, getDay, addDays]
  omega

theorem isWeekendDay_true_of (k : Int) (d : DateTime)
    (h : (d.days + k + 4) % 7 = 0 ∨ (d.days + k + 4) % 7 = 6) :
    isWeekendDay (addDays k d) = true := by
  simp [isWeekendDay, getDay, addDays]
  omega

theorem isWeekendDay_false_of (k : Int) (d : DateTime) (h0 : (d.days + k + 4) % 7 ≠ 0)
    (h6 : (d.days + k + 4) % 7 ≠ 6) : isWeekendDay (addDays k d) = false := by
  simp [isWeekendDay, getDay, addDays]
  omega

/-- Among the 7 days after any date there is a Monday-to-Friday day, so the
7-day search of the workdays loop always succeeds. -/
theorem findNextSat_workday_isSome (d : DateTime) :
    (findNextSat isWorkday 7 d).isSome = true := by
  have hr : (d.days + 4) % 7 = 0 ∨ (d.days + 4) % 7 = 1 ∨ (d.days + 4) % 7 = 2
      ∨ (d.days + 4) % 7 = 3 ∨ (d.days + 4) % 7 = 4 ∨ (d.days + 4) % 7 = 5
      ∨ (d.days + 4) % 7 = 6 := by
    omega
  rcases hr with h | h | h | h | h | h | h
  · have h1 := isWorkday_true_of 1 d (by omega) (by omega)
    simp [findNextSat, h1]
  · have h1 := isWorkday_true_of 1 d (by omega) (by omega)
    simp [findNextSat, h1]
  · have h1 := isWorkday_true_of 1 d (by omega) (by omega)
    simp [findNextSat, h1]
  · have h1 := isWorkday_true_of 1 d (by omega) (by omega)
    simp [findNextSat, h1]
  · have h1 := isWorkday_true_of 1 d (by omega) (by omega)
    simp [findNextSat, h1]
  · have h1 := isWorkday_false_of 1 d (by omega)
    have h2 := isWorkday_false_of 2 d (by omega)
    have h3 := isWorkday_true_of 3 d (by omega) (by omega)
    simp [findNextSat, addDays_addDays, h1, h2, h3]
  · have h1 := isWorkday_false_of 1 d (by omega)
    have h2 := isWorkday_true_of 2 d (by omega) (by omega)
    simp [findNextSat, addDays_addDays, h1, h2]

/-- Among the 7 days after any date there is a Saturday or Sunday, so the
7-day search of the weekends loop always succeeds. -/
theorem findNextSat_weekend_isSome (d : DateTime) :
    (findNextSat isWeekendDay 7 d).isSome = true := by
  have hr : (d.days + 4) % 7 = 0 ∨ (d.days + 4) % 7 = 1 ∨ (d.days + 4) % 7 = 2
      ∨ (d.days + 4) % 7 = 3 ∨ (d.days + 4) % 7 = 4 ∨ (d.days + 4) % 7 = 5
      ∨ (d.days + 4) % 7 = 6 := by
    omega
  rcases hr with h | h | h | h | h | h | h
  · have h1 := isWeekendDay_false_of 1 d (by omega) (by omega)
    have h2 := isWeekendDay_false_of 2 d (by omega) (by omega)
    have h3 := isWeekendDay_false_of 3 d (by omega) (by omega)
    have h4 := isWeekendDay_false_of 4 d (by omega) (by omega)
    have h5 := isWeekendDay_false_of 5 d (by omega) (by omega)
    have h6 := isWeekendDay_true_of 6 d (by omega)
    simp [findNextSat, addDays_addDays, h1, h2, h3, h4, h5, h6]
  · have h1 := isWeekendDay_false_of 1 d (by omega) (by omega)
    have h2 := isWeekendDay_false_of 2 d (by omega) (by omega)
    have h3 := isWeekendDay_false_of 3 d (by omega) (by omega)
    have h4 := isWeekendDay_false_of 4 d (by omega) (by omega)
    have h5 := isWeekendDay_true_of 5 d (by omega)
    simp [findNextSat, addDays_addDays, h1, h2, h3, h4, h5]
  · have h1 := isWeekendDay_false_of 1 d (by omega) (by omega)
    have h2 := isWeekendDay_false_of 2 d (by omega) (by omega)
    have h3 := isWeekendDay_false_of 3 d (by omega) (by omega)
    have h4 := isWeekendDay_true_of 4 d (by omega)
    simp [findNextSat, addDays_addDays, h1, h2, h3, h4]
  · have h1 := isWeekendDay_false_of 1 d (by omega) (by omega)
    have h2 := isWeekendDay_false_of 2 d (by omega) (by omega)
    have h3 := isWeekendDay_true_of 3 d (by omega)
    simp [findNextSat, addDays_addDays, h1, h2, h3]
  · have h1 := isWeekendDay_false_of 1 d (by omega) (by omega)
    have h2 := isWeekendDay_true_of 2 d (by omega)
    simp [findNextSat, addDays_addDays, h1, h2]
  · have h1 := isWeekendDay_true_of 1 d (by omega)
    simp [findNextSat, h1]
  · have h1 := isWeekendDay_true_of 1 d (by omega)
    simp [findNextSat, h1]

/-- The generation loop stabilizes once fuel covers the remaining
`maxInstances - occurrenceCount` budget: each iteration increments the
counter, which the guard bounds, so any two sufficient fuels agree. -/
theorem genLoop_fuel_irrelevant (env : GenEnv) :
    ∀ (fuel1 fuel2 : Nat) (cur : DateTime) (occ : Int),
      (env.maxInstances - occ).toNat ≤ fuel1 → (env.maxInstances - occ).toNat ≤ fuel2 →
      genLoop env fuel1 cur occ = genLoop env fuel2 cur occ := by
  intro fuel1
  induction fuel1 with
  | zero =>
    intro fuel2 cur occ h1 h2
    have hno : ¬ (occ < env.maxInstances) := by omega
    cases fuel2 with
    | zero => rfl
    | succ f2 => simp [genLoop, hno]
  | succ f1 ih =>
    intro fuel2 cur occ h1 h2
    cases fuel2 with
    | zero =>
      have hno : ¬ (occ < env.maxInstances) := by omega
      simp [genLoop, hno]
    | succ f2 =>
      by_cases hg1 : occ < env.maxInstances
      · by_cases hg2 : toMins cur ≤ toMins env.endDate
        · by_cases hc : shouldContinue env.rule occ cur = true
          · cases hnx : calculateNextOccurrence env.rule cur env.startDate with
            | none => simp [genLoop, hg1, hg2, hc, hnx]
            | some nxt =>
              have hrec := ih f2 nxt (occ + 1) (by omega) (by omega)
              simp [genLoop, hg1, hg2, hc, hnx, hrec]
          · simp [genLoop, hg1, hg2, hc]
        · simp [genLoop, hg1, hg2]
      · simp [genLoop, hg1]

/-- C10: termination of generation.  The workdays/weekends day-at-a-time
searches always succeed within 7 days (every 7 consecutive days contain a
counted day), and the generation loop's result is independent of any fuel
covering the `maxInstances - occurrenceCount` budget — each iteration
increments `occurrenceCount`, which the loop guard bounds by `maxInstances`,
so the loop always ends even when the calculator fails to advance the date. -/
theorem generation_terminates (env : GenEnv) :
    (∀ d : DateTime, (findNextSat isWorkday 7 d).isSome = true
        ∧ (findNextSat isWeekendDay 7 d).isSome = true)
    ∧ (∀ (fuel1 fuel2 : Nat) (cur : DateTime) (occ : Int),
        (env.maxInstances - occ).toNat ≤ fuel1 →
        (env.maxInstances - occ).toNat ≤ fuel2 →
        genLoop env fuel1 cur occ = genLoop env fuel2 cur occ) :=
  ⟨fun d => ⟨findNextSat_workday_isSome d, findNextSat_weekend_isSome d⟩,
    genLoop_fuel_irrelevant env⟩

/-- Witness for C10 at a concrete context, with two different fuels past the
budget. -/
theorem generation_terminates_witness :
    ((findNextSat isWorkday 7 epochD).isSome = true
      ∧ (findNextSat isWeekendDay 7 epochD).isSome = true)
    ∧ genLoop envW 7 epochD 0 = genLoop envW 9 epochD 0 :=
  ⟨(generation_terminates envW).1 epochD,
    (generation_terminates envW).2 7 9 epochD 0 (by decide) (by decide)⟩

end Planer
